import Mathlib

/-!
Verification of the CHIP-8 interpreter (`src/interpreter.rs`, `src/display.rs`,
`src/util.rs`, `src/main.rs`) against its natural-language specification.

The Rust code is shallowly embedded: machine integers (`u8`, `u16`) become
`Nat` with explicit `% 256` / `% 65536` at the points where the source
performs a narrowing cast or a wrapping operation; fixed arrays (`[u8; 4096]`,
the register file, the pixel grid) become total functions updated pointwise;
the one reachable `panic!` in the source (`r#return` on an empty call stack)
is modelled as an explicit `panicked` outcome of the dispatch step, distinct
from the `Result::Err` path that the interpreter's `run` loop propagates.
-/

namespace Chip8

/-- Pointwise update of a function, embedding an array element assignment. -/
def updFn (f : Nat → Nat) (k v : Nat) : Nat → Nat :=
  fun n => if n = k then v else f n

@[simp] theorem updFn_same (f : Nat → Nat) (k v : Nat) : updFn f k v k = v := by
  simp [updFn]

theorem updFn_other (f : Nat → Nat) (k v n : Nat) (h : n ≠ k) :
    updFn f k v n = f n := by
  simp [updFn, h]

/-- Embeds `Interpreter::get_instruction`: the two program bytes are
concatenated big-endian into one 16-bit instruction word. -/
def get_instruction (byte1 byte2 : Nat) : Nat :=
  (byte1 <<< 8) ||| byte2

/-- Embeds `split_word`: the 16-bit word is split into four 4-bit nibbles
(most significant first); the `as u8` casts of the source are `% 256`. -/
def split_word (word : Nat) : Nat × Nat × Nat × Nat :=
  ((word >>> 12) % 256,
   ((word &&& 0x0F00) >>> 8) % 256,
   ((word &&& 0x00F0) >>> 4) % 256,
   ((word &&& 0x000F) >>> 0) % 256)

/-- Embeds `Tribble::new`: three nibbles concatenated into a 12-bit value. -/
def Tribble.new (nibble1 nibble2 nibble3 : Nat) : Nat :=
  (((nibble1 <<< 4) ||| nibble2) <<< 4) ||| nibble3

/-- Reassembly of a full 16-bit word from its four nibbles, as the spec's
round-trip law describes it: the high nibble glued onto the 12-bit operand
built by the source's `Tribble::new`. -/
def reassemble_word (nibble1 nibble2 nibble3 nibble4 : Nat) : Nat :=
  (nibble1 <<< 12) ||| Tribble.new nibble2 nibble3 nibble4

theorem shiftLeft_lor_eq_add (a b k : Nat) (hb : b < 2 ^ k) :
    (a <<< k) ||| b = a * 2 ^ k + b := by
  rw [Nat.shiftLeft_eq, Nat.mul_comm]
  exact (Nat.mul_add_lt_is_or hb a).symm

theorem shiftLeft4_lor_eq_add (a b : Nat) (hb : b < 16) :
    (a <<< 4) ||| b = a * 16 + b := by
  have h := shiftLeft_lor_eq_add a b 4 (lt_of_lt_of_le hb (by norm_num))
  simpa using h

theorem shiftLeft8_lor_eq_add (a b : Nat) (hb : b < 256) :
    (a <<< 8) ||| b = a * 256 + b := by
  have h := shiftLeft_lor_eq_add a b 8 (lt_of_lt_of_le hb (by norm_num))
  simpa using h

theorem shiftLeft12_lor_eq_add (a b : Nat) (hb : b < 4096) :
    (a <<< 12) ||| b = a * 4096 + b := by
  have h := shiftLeft_lor_eq_add a b 12 (lt_of_lt_of_le hb (by norm_num))
  simpa using h

theorem and_f00_shr (w : Nat) : (w &&& 0x0F00) >>> 8 = w / 256 % 16 := by
  have h4 : ∀ i, Nat.testBit 0x0F00 (8 + i) = Nat.testBit 15 i := by
    intro i
    have h2 : (0x0F00 : Nat) = 15 <<< 8 := by decide
    rw [h2, Nat.testBit_shiftLeft]
    simp
  have h1 : (w &&& 0x0F00) >>> 8 = (w >>> 8) &&& 15 := by
    apply Nat.eq_of_testBit_eq
    intro i
    simp only [Nat.testBit_shiftRight, Nat.testBit_and, h4]
  rw [h1]
  have h3 : (15 : Nat) = 2 ^ 4 - 1 := by norm_num
  rw [h3, Nat.and_pow_two_sub_one_eq_mod, Nat.shiftRight_eq_div_pow]

theorem and_f0_shr (w : Nat) : (w &&& 0x00F0) >>> 4 = w / 16 % 16 := by
  have h4 : ∀ i, Nat.testBit 0x00F0 (4 + i) = Nat.testBit 15 i := by
    intro i
    have h2 : (0x00F0 : Nat) = 15 <<< 4 := by decide
    rw [h2, Nat.testBit_shiftLeft]
    simp
  have h1 : (w &&& 0x00F0) >>> 4 = (w >>> 4) &&& 15 := by
    apply Nat.eq_of_testBit_eq
    intro i
    simp only [Nat.testBit_shiftRight, Nat.testBit_and, h4]
  rw [h1]
  have h3 : (15 : Nat) = 2 ^ 4 - 1 := by norm_num
  rw [h3, Nat.and_pow_two_sub_one_eq_mod, Nat.shiftRight_eq_div_pow]

theorem and_f (w : Nat) : w &&& 0x000F = w % 16 := by
  have h3 : (0x000F : Nat) = 2 ^ 4 - 1 := by norm_num
  rw [h3, Nat.and_pow_two_sub_one_eq_mod]

/-- Arithmetic characterisation of `split_word` on genuine 16-bit words. -/
theorem split_word_eq (w : Nat) (hw : w < 65536) :
    split_word w = (w / 4096, w / 256 % 16, w / 16 % 16, w % 16) := by
  unfold split_word
  have h1 : w >>> 12 = w / 4096 := by
    rw [Nat.shiftRight_eq_div_pow]
  rw [Nat.shiftRight_zero, and_f00_shr, and_f0_shr, and_f, h1]
  have e1 : w / 4096 % 256 = w / 4096 := Nat.mod_eq_of_lt (by omega)
  have e2 : w / 256 % 16 % 256 = w / 256 % 16 := Nat.mod_eq_of_lt (by omega)
  have e3 : w / 16 % 16 % 256 = w / 16 % 16 := Nat.mod_eq_of_lt (by omega)
  have e4 : w % 16 % 256 = w % 16 := Nat.mod_eq_of_lt (by omega)
  rw [e1, e2, e3, e4]

theorem get_instruction_eq (b1 b2 : Nat) (h2 : b2 < 256) :
    get_instruction b1 b2 = b1 * 256 + b2 :=
  shiftLeft8_lor_eq_add b1 b2 h2

theorem tribble_eq (n1 n2 n3 : Nat) (h2 : n2 < 16) (h3 : n3 < 16) :
    Tribble.new n1 n2 n3 = (n1 * 16 + n2) * 16 + n3 := by
  unfold Tribble.new
  rw [shiftLeft4_lor_eq_add _ _ h2, shiftLeft4_lor_eq_add _ _ h3]

/-- C9: assembling a 16-bit word big-endian, splitting it into four nibbles
and reassembling them reproduces the word; `split_word 0xABCD` yields
`(0xA, 0xB, 0xC, 0xD)`; the 12-bit address operand of `0xABFE` is `0xBFE`. -/
theorem C9_decode_roundtrip :
    (∀ w : Nat, w < 65536 →
      reassemble_word (split_word w).1 (split_word w).2.1
        (split_word w).2.2.1 (split_word w).2.2.2 = w)
    ∧ split_word 0xABCD = (0xA, 0xB, 0xC, 0xD)
    ∧ Tribble.new (split_word (get_instruction 0xAB 0xFE)).2.1
        (split_word (get_instruction 0xAB 0xFE)).2.2.1
        (split_word (get_instruction 0xAB 0xFE)).2.2.2 = 0xBFE := by
  refine ⟨?_, by decide, by decide⟩
  intro w hw
  rw [split_word_eq w hw]
  dsimp only
  unfold reassemble_word
  rw [tribble_eq _ _ _ (Nat.mod_lt _ (by norm_num)) (Nat.mod_lt _ (by norm_num))]
  rw [shiftLeft12_lor_eq_add _ _ (by omega)]
  omega

/-- Concrete instance of the C9 round-trip law at the word 0x1234. -/
theorem C9_decode_roundtrip_witness :
    reassemble_word (split_word 0x1234).1 (split_word 0x1234).2.1
      (split_word 0x1234).2.2.1 (split_word 0x1234).2.2.2 = 0x1234 :=
  C9_decode_roundtrip.1 0x1234 (by norm_num)

/-- Embeds `display::SIZE.width`: the grid is 10 columns wider than 64. -/
def SIZE_width : Nat := 64 + 10

/-- Embeds `display::SIZE.height`: the grid is 10 rows taller than 32. -/
def SIZE_height : Nat := 32 + 10

/-- The pixel grid of `Display`, indexed `grid[y][x]` as in the source.
The source's fixed `[[bool; SIZE.width]; SIZE.height]` array is embedded as
a total function; the source indexes it only through `get`/`set`. -/
abbrev Grid : Type := Nat → Nat → Bool

/-- Embeds `terminal::util::Point` (only the fields the interpreter uses). -/
structure Point where
  x : Nat
  y : Nat

/-- Embeds `Display::get`. -/
def Grid.get (g : Grid) (p : Point) : Bool :=
  g p.y p.x

/-- Embeds `Display::set`. -/
def Grid.set (g : Grid) (p : Point) (bit : Bool) : Grid :=
  fun y x => if y = p.y ∧ x = p.x then bit else g y x

/-- Embeds `Display::xor`. -/
def Grid.xor (g : Grid) (p : Point) (bit : Bool) : Grid :=
  g.set p (Bool.xor (g.get p) bit)

theorem Grid.set_same (g : Grid) (p : Point) (bit : Bool) :
    Grid.set g p bit p.y p.x = bit := by
  simp [Grid.set]

theorem Grid.set_other (g : Grid) (p : Point) (bit : Bool) (y x : Nat)
    (h : y ≠ p.y ∨ x ≠ p.x) : Grid.set g p bit y x = g y x := by
  rcases h with h | h <;> simp [Grid.set, h]

/-- The `k`-th bit of a byte, most-significant first, exactly as the
`Bits` iterator of `util.rs` produces it at `index = k`. -/
def bitAt (byte k : Nat) : Bool :=
  ((byte >>> (7 - k)) &&& 1) == 1

/-- Embeds the `Bits` iterator of `util.rs` run to exhaustion: the 8 bits
of a byte, from most-significant to least-significant. -/
def Bits.list (byte : Nat) : List Bool :=
  (List.range 8).map (bitAt byte)

theorem Bits.list_length (byte : Nat) : (Bits.list byte).length = 8 := by
  simp [Bits.list]

theorem Bits.list_getD (byte k : Nat) (h : k < 8) :
    (Bits.list byte).getD k false = bitAt byte k := by
  interval_cases k <;> rfl

/-- Embeds the inner `for bit in bits` loop of `Display::draw_sprite`:
XOR one row of sprite bits into the grid left to right, accumulating the
set-to-unset collision flag. -/
def Display.draw_row (g : Grid) (p : Point) : List Bool → Grid × Bool
  | [] => (g, false)
  | bit :: rest =>
    let previous_bit := g.get p
    let g1 := g.xor p bit
    let current_bit := g1.get p
    let res := Display.draw_row g1 { p with x := p.x + 1 } rest
    (res.1, (previous_bit && !current_bit) || res.2)

/-- Embeds `Display::draw_sprite`: one row per sprite byte, top to bottom,
returning the updated grid and whether any pixel flipped from set to unset.
(The terminal redraw calls of the source affect no machine state and are
omitted.) -/
def Display.draw_sprite (g : Grid) (p : Point) : List Nat → Grid × Bool
  | [] => (g, false)
  | byte :: rest =>
    let row := Display.draw_row g p (Bits.list byte)
    let res := Display.draw_sprite row.1 { p with y := p.y + 1 } rest
    (res.1, row.2 || res.2)

theorem draw_row_spec (bits : List Bool) : ∀ (g : Grid) (x y : Nat),
    (∀ y' x', y' ≠ y ∨ x' < x →
      (Display.draw_row g ⟨x, y⟩ bits).1 y' x' = g y' x')
    ∧ (∀ k, k < bits.length →
      (Display.draw_row g ⟨x, y⟩ bits).1 y (x + k)
        = Bool.xor (g y (x + k)) (bits.getD k false))
    ∧ ((Display.draw_row g ⟨x, y⟩ bits).2 = true ↔
      ∃ k, k < bits.length ∧ g y (x + k) = true ∧ bits.getD k false = true) := by
  induction bits with
  | nil =>
    intro g x y
    refine ⟨?_, ?_, ?_⟩ <;> simp [Display.draw_row]
  | cons b rest ih =>
    intro g x y
    have hg1 : ∀ y' x', y' ≠ y ∨ x' ≠ x →
        Grid.xor g ⟨x, y⟩ b y' x' = g y' x' := by
      intro y' x' h
      exact Grid.set_other _ _ _ _ _ h
    obtain ⟨ihf, ihg, ihc⟩ := ih (Grid.xor g ⟨x, y⟩ b) (x + 1) y
    have hcur : Grid.xor g ⟨x, y⟩ b y x = Bool.xor (g y x) b := by
      have h := Grid.set_same g ⟨x, y⟩ (Bool.xor (Grid.get g ⟨x, y⟩) b)
      simpa [Grid.xor, Grid.get] using h
    refine ⟨?_, ?_, ?_⟩
    · intro y' x' h
      have h1 : y' ≠ y ∨ x' < x + 1 := by omega
      have h2 : y' ≠ y ∨ x' ≠ x := by omega
      calc (Display.draw_row g ⟨x, y⟩ (b :: rest)).1 y' x'
          = (Display.draw_row (Grid.xor g ⟨x, y⟩ b) ⟨x + 1, y⟩ rest).1 y' x' := by
            simp [Display.draw_row]
        _ = Grid.xor g ⟨x, y⟩ b y' x' := ihf y' x' h1
        _ = g y' x' := hg1 y' x' h2
    · intro k hk
      match k with
      | 0 =>
        calc (Display.draw_row g ⟨x, y⟩ (b :: rest)).1 y (x + 0)
            = (Display.draw_row (Grid.xor g ⟨x, y⟩ b) ⟨x + 1, y⟩ rest).1 y x := by
              simp [Display.draw_row]
          _ = Grid.xor g ⟨x, y⟩ b y x := ihf y x (by omega)
          _ = Bool.xor (g y x) b := hcur
          _ = Bool.xor (g y (x + 0)) ((b :: rest).getD 0 false) := by simp
      | k + 1 =>
        have hk' : k < rest.length := by
          simp only [List.length_cons] at hk
          omega
        calc (Display.draw_row g ⟨x, y⟩ (b :: rest)).1 y (x + (k + 1))
            = (Display.draw_row (Grid.xor g ⟨x, y⟩ b) ⟨x + 1, y⟩ rest).1 y ((x + 1) + k) := by
              rw [show x + (k + 1) = (x + 1) + k from by omega]
              simp [Display.draw_row]
          _ = Bool.xor (Grid.xor g ⟨x, y⟩ b y ((x + 1) + k)) (rest.getD k false) := ihg k hk'
          _ = Bool.xor (g y (x + (k + 1))) ((b :: rest).getD (k + 1) false) := by
              rw [hg1 y ((x + 1) + k) (by omega)]
              rw [show x + (k + 1) = (x + 1) + k from by omega]
              rfl
    · have hbit : (Grid.get g ⟨x, y⟩ && !(Grid.get (Grid.xor g ⟨x, y⟩ b) ⟨x, y⟩))
          = (g y x && b) := by
        have hc : Grid.get (Grid.xor g ⟨x, y⟩ b) ⟨x, y⟩ = Bool.xor (g y x) b := hcur
        rw [hc]
        show (g y x && !(Bool.xor (g y x) b)) = (g y x && b)
        cases hgx : g y x <;> cases hb : b <;> rfl
      have hexp : (Display.draw_row g ⟨x, y⟩ (b :: rest)).2
          = ((Grid.get g ⟨x, y⟩ && !(Grid.get (Grid.xor g ⟨x, y⟩ b) ⟨x, y⟩))
             || (Display.draw_row (Grid.xor g ⟨x, y⟩ b) ⟨x + 1, y⟩ rest).2) := rfl
      rw [hexp, hbit]
      constructor
      · intro h
        rcases Bool.or_eq_true_iff.mp h with h | h
        · exact ⟨0, by simp, by simpa using Bool.and_eq_true_iff.mp h⟩
        · obtain ⟨k, hk, hcell, hbit2⟩ := ihc.mp h
          refine ⟨k + 1, by simp only [List.length_cons]; omega, ?_, by simpa using hbit2⟩
          rw [show x + (k + 1) = (x + 1) + k from by omega]
          rw [← hg1 y ((x + 1) + k) (by omega)]
          exact hcell
      · rintro ⟨k, hk, hcell, hbit2⟩
        match k with
        | 0 =>
          apply Bool.or_eq_true_iff.mpr
          left
          simp only [List.getD_cons_zero] at hbit2
          apply Bool.and_eq_true_iff.mpr
          exact ⟨by simpa using hcell, hbit2⟩
        | k + 1 =>
          apply Bool.or_eq_true_iff.mpr
          right
          apply ihc.mpr
          refine ⟨k, by simp only [List.length_cons] at hk; omega, ?_, by simpa using hbit2⟩
          rw [hg1 y ((x + 1) + k) (by omega)]
          rw [show (x + 1) + k = x + (k + 1) from by omega]
          exact hcell

theorem draw_sprite_spec (bytes : List Nat) : ∀ (g : Grid) (x y : Nat),
    (∀ y' x', y' < y → (Display.draw_sprite g ⟨x, y⟩ bytes).1 y' x' = g y' x')
    ∧ (∀ r, r < bytes.length → ∀ k, k < 8 →
      (Display.draw_sprite g ⟨x, y⟩ bytes).1 (y + r) (x + k)
        = Bool.xor (g (y + r) (x + k)) (bitAt (bytes.getD r 0) k))
    ∧ ((Display.draw_sprite g ⟨x, y⟩ bytes).2 = true ↔
      ∃ r, r < bytes.length ∧ ∃ k, k < 8 ∧
        g (y + r) (x + k) = true ∧ bitAt (bytes.getD r 0) k = true) := by
  induction bytes with
  | nil =>
    intro g x y
    refine ⟨?_, ?_, ?_⟩ <;> simp [Display.draw_sprite]
  | cons byte rest ih =>
    intro g x y
    obtain ⟨rowf, rowg, rowc⟩ := draw_row_spec (Bits.list byte) g x y
    set g1 : Grid := (Display.draw_row g ⟨x, y⟩ (Bits.list byte)).1 with hg1def
    obtain ⟨ihf, ihg, ihc⟩ := ih g1 x (y + 1)
    have hrow_other : ∀ y' x', y' ≠ y → g1 y' x' = g y' x' := by
      intro y' x' h
      exact rowf y' x' (Or.inl h)
    refine ⟨?_, ?_, ?_⟩
    · intro y' x' h
      calc (Display.draw_sprite g ⟨x, y⟩ (byte :: rest)).1 y' x'
          = (Display.draw_sprite g1 ⟨x, y + 1⟩ rest).1 y' x' := by
            simp [Display.draw_sprite]
        _ = g1 y' x' := ihf y' x' (by omega)
        _ = g y' x' := hrow_other y' x' (by omega)
    · intro r hr k hk
      match r with
      | 0 =>
        calc (Display.draw_sprite g ⟨x, y⟩ (byte :: rest)).1 (y + 0) (x + k)
            = (Display.draw_sprite g1 ⟨x, y + 1⟩ rest).1 y (x + k) := by
              simp [Display.draw_sprite]
          _ = g1 y (x + k) := ihf y (x + k) (by omega)
          _ = Bool.xor (g y (x + k)) ((Bits.list byte).getD k false) := by
              rw [hg1def]
              exact rowg k (by rw [Bits.list_length]; exact hk)
          _ = Bool.xor (g (y + 0) (x + k)) (bitAt ((byte :: rest).getD 0 0) k) := by
              rw [Bits.list_getD byte k hk]
              rfl
      | r + 1 =>
        have hr' : r < rest.length := by
          simp only [List.length_cons] at hr
          omega
        calc (Display.draw_sprite g ⟨x, y⟩ (byte :: rest)).1 (y + (r + 1)) (x + k)
            = (Display.draw_sprite g1 ⟨x, y + 1⟩ rest).1 ((y + 1) + r) (x + k) := by
              rw [show y + (r + 1) = (y + 1) + r from by omega]
              simp [Display.draw_sprite]
          _ = Bool.xor (g1 ((y + 1) + r) (x + k)) (bitAt (rest.getD r 0) k) := ihg r hr' k hk
          _ = Bool.xor (g (y + (r + 1)) (x + k)) (bitAt ((byte :: rest).getD (r + 1) 0) k) := by
              rw [hrow_other ((y + 1) + r) (x + k) (by omega)]
              rw [show (y + 1) + r = y + (r + 1) from by omega]
              rfl
    · have hflag : (Display.draw_sprite g ⟨x, y⟩ (byte :: rest)).2
          = ((Display.draw_row g ⟨x, y⟩ (Bits.list byte)).2
             || (Display.draw_sprite g1 ⟨x, y + 1⟩ rest).2) := by
        simp [Display.draw_sprite]
      rw [hflag]
      constructor
      · intro h
        rcases Bool.or_eq_true_iff.mp h with h | h
        · obtain ⟨k, hk, hcell, hbit⟩ := rowc.mp h
          rw [Bits.list_length] at hk
          rw [Bits.list_getD byte k hk] at hbit
          exact ⟨0, by simp, k, hk, by simpa using hcell, by simpa using hbit⟩
        · obtain ⟨r, hr, k, hk, hcell, hbit⟩ := ihc.mp h
          refine ⟨r + 1, by simp only [List.length_cons]; omega, k, hk, ?_,
            by simpa using hbit⟩
          rw [show y + (r + 1) = (y + 1) + r from by omega]
          rw [← hrow_other ((y + 1) + r) (x + k) (by omega)]
          exact hcell
      · rintro ⟨r, hr, k, hk, hcell, hbit⟩
        match r with
        | 0 =>
          apply Bool.or_eq_true_iff.mpr
          left
          apply rowc.mpr
          refine ⟨k, by rw [Bits.list_length]; exact hk, by simpa using hcell, ?_⟩
          rw [Bits.list_getD byte k hk]
          simpa using hbit
        | r + 1 =>
          apply Bool.or_eq_true_iff.mpr
          right
          apply ihc.mpr
          refine ⟨r, by simp only [List.length_cons] at hr; omega, k, hk, ?_,
            by simpa using hbit⟩
          rw [hrow_other ((y + 1) + r) (x + k) (by omega)]
          rw [show (y + 1) + r = y + (r + 1) from by omega]
          exact hcell

/-- Embeds `MEMORY_SIZE`. -/
def MEMORY_SIZE : Nat := 0x1000

/-- Embeds `START_POINT`. -/
def START_POINT : Nat := 0x200

/-- Embeds `display::FONT`: the inbuilt 4x5 font, 16 glyphs of 7 bytes each
(5 pixel rows plus 2 blank rows). -/
def FONT : List Nat := [
  0b11110000, 0b10010000, 0b10010000, 0b10010000, 0b11110000, 0b00000000, 0b00000000,
  0b00110000, 0b01010000, 0b10010000, 0b00010000, 0b00010000, 0b00000000, 0b00000000,
  0b01110000, 0b10010000, 0b00110000, 0b01000000, 0b11110000, 0b00000000, 0b00000000,
  0b01100000, 0b10010000, 0b00110000, 0b10010000, 0b01100000, 0b00000000, 0b00000000,
  0b10010000, 0b10010000, 0b11110000, 0b00010000, 0b00010000, 0b00000000, 0b00000000,
  0b11110000, 0b10000000, 0b11100000, 0b00010000, 0b11100000, 0b00000000, 0b00000000,
  0b01110000, 0b10000000, 0b11100000, 0b10010000, 0b01100000, 0b00000000, 0b00000000,
  0b11110000, 0b00010000, 0b00100000, 0b01000000, 0b01000000, 0b00000000, 0b00000000,
  0b01100000, 0b10010000, 0b01100000, 0b10010000, 0b01100000, 0b00000000, 0b00000000,
  0b01100000, 0b10010000, 0b01110000, 0b00010000, 0b01100000, 0b00000000, 0b00000000,
  0b01100000, 0b10010000, 0b11110000, 0b10010000, 0b10010000, 0b00000000, 0b00000000,
  0b11100000, 0b10010000, 0b11100000, 0b10010000, 0b11100000, 0b00000000, 0b00000000,
  0b01100000, 0b10010000, 0b10000000, 0b10010000, 0b01100000, 0b00000000, 0b00000000,
  0b11100000, 0b10010000, 0b10010000, 0b10010000, 0b11100000, 0b00000000, 0b00000000,
  0b11110000, 0b10000000, 0b11110000, 0b10000000, 0b11110000, 0b00000000, 0b00000000,
  0b11110000, 0b10000000, 0b11110000, 0b10000000, 0b10000000, 0b00000000, 0b00000000]

/-- The interpreter state (`struct Interpreter`): program counter, general
purpose registers, address register, display grid, call stack, memory and
the two timers. The RNG is not part of the state; the byte it would produce
is an input of `step`. -/
structure Interp where
  pc : Nat
  gpr : Nat → Nat
  i : Nat
  display : Grid
  stack : List Nat
  memory : Nat → Nat
  delay_timer : Nat
  sound_timer : Nat

/-- Writes the bytes of a list to consecutive addresses starting at `start`;
embeds the loading loops of `Interpreter::new`. -/
def loadList (mem : Nat → Nat) (start : Nat) : List Nat → (Nat → Nat)
  | [] => mem
  | b :: rest => loadList (updFn mem start b) (start + 1) rest

/-- Embeds `load_font`: the font is written at memory offset 0. -/
def load_font (mem : Nat → Nat) : Nat → Nat :=
  loadList mem 0 FONT

/-- Embeds `Interpreter::new`: zeroed memory, font at offset 0, program at
`START_POINT`; fails with the size-limit message when the program does not
fit below `MEMORY_SIZE`. -/
def Interp.new (program : List Nat) : Except String Interp :=
  if START_POINT + program.length ≤ MEMORY_SIZE then
    Except.ok
      { pc := START_POINT
        gpr := fun _ => 0
        i := 0x000
        display := fun _ _ => false
        stack := []
        memory := loadList (load_font (fun _ => 0)) START_POINT program
        delay_timer := 0
        sound_timer := 0 }
  else
    Except.error "Program is bigger than 4096 bytes."

/-- Embeds `get_register`. -/
def Interp.get_register (st : Interp) (register : Nat) : Nat :=
  st.gpr register

/-- Embeds `set_flag`. -/
def Interp.set_flag (st : Interp) : Interp :=
  { st with gpr := updFn st.gpr 0xF 1 }

/-- Embeds `clear_flag`. -/
def Interp.clear_flag (st : Interp) : Interp :=
  { st with gpr := updFn st.gpr 0xF 0 }

/-- Embeds `store_lsb_in_flag`. -/
def Interp.store_lsb_in_flag (st : Interp) (value : Nat) : Interp :=
  { st with gpr := updFn st.gpr 0xF (value &&& 0b00000001) }

/-- Embeds `next_instruction` (`pc += 2` on a `u16`). -/
def Interp.next_instruction (st : Interp) : Interp :=
  { st with pc := (st.pc + 2) % 65536 }

/-- Embeds `previous_instruction` (`pc -= 2`; never called with `pc < 2`). -/
def Interp.previous_instruction (st : Interp) : Interp :=
  { st with pc := st.pc - 2 }

/-- Embeds `skip_next_instruction_if`. -/
def Interp.skip_next_instruction_if (st : Interp) (condition : Bool) : Interp :=
  if condition then st.next_instruction else st

/-- Embeds `jump`. -/
def Interp.jump (st : Interp) (address : Nat) : Interp :=
  { st with pc := address }

/-- Embeds `call`. -/
def Interp.call (st : Interp) (address : Nat) : Interp :=
  Interp.jump { st with stack := st.pc :: st.stack } address

/-- Result of the `00EE` handler: the source `panic!`s on an empty stack. -/
inductive RetResult where
  | panicked (msg : String)
  | ok (st : Interp)

/-- Embeds `r#return` (Lean cannot use that name): pop the stack and jump
there; panic with the source's message when the stack is empty. -/
def Interp.ret (st : Interp) : RetResult :=
  match st.stack with
  | address :: rest => RetResult.ok (Interp.jump { st with stack := rest } address)
  | [] => RetResult.panicked "return outside function"

/-- Embeds `value_equality_skip`. -/
def Interp.value_equality_skip (st : Interp) (register byte : Nat) : Interp :=
  st.skip_next_instruction_if (st.get_register register == byte)

/-- Embeds `value_inequality_skip`. -/
def Interp.value_inequality_skip (st : Interp) (register byte : Nat) : Interp :=
  st.skip_next_instruction_if (st.get_register register != byte)

/-- Embeds `register_equality_skip`. -/
def Interp.register_equality_skip (st : Interp) (register1 register2 : Nat) : Interp :=
  st.skip_next_instruction_if (st.get_register register1 == st.get_register register2)

/-- Embeds `register_inequality_skip`. -/
def Interp.register_inequality_skip (st : Interp) (register1 register2 : Nat) : Interp :=
  st.skip_next_instruction_if (st.get_register register1 != st.get_register register2)

/-- Embeds `set_register_to_value`. -/
def Interp.set_register_to_value (st : Interp) (register value : Nat) : Interp :=
  { st with gpr := updFn st.gpr register value }

/-- Embeds `add_to_register` (`wrapping_add` on a `u8`). -/
def Interp.add_to_register (st : Interp) (register value : Nat) : Interp :=
  { st with gpr := updFn st.gpr register ((st.gpr register + value) % 256) }

/-- Embeds `set_registers`. -/
def Interp.set_registers (st : Interp) (register1 register2 : Nat) : Interp :=
  { st with gpr := updFn st.gpr register1 (st.get_register register2) }

/-- Embeds `or_registers`. -/
def Interp.or_registers (st : Interp) (register1 register2 : Nat) : Interp :=
  { st with gpr := updFn st.gpr register1 (st.gpr register1 ||| st.get_register register2) }

/-- Embeds `and_registers`. -/
def Interp.and_registers (st : Interp) (register1 register2 : Nat) : Interp :=
  { st with gpr := updFn st.gpr register1 (st.gpr register1 &&& st.get_register register2) }

/-- Embeds `xor_registers`. -/
def Interp.xor_registers (st : Interp) (register1 register2 : Nat) : Interp :=
  { st with gpr := updFn st.gpr register1 (st.gpr register1 ^^^ st.get_register register2) }

/-- Embeds `add_registers` (`overflowing_add` on `u8`): the wrapping sum is
written to the destination register first, then the flag register. -/
def Interp.add_registers (st : Interp) (register1 register2 : Nat) : Interp :=
  let register2_value := st.get_register register2
  let register1_value := st.gpr register1
  let result := (register1_value + register2_value) % 256
  let st1 := { st with gpr := updFn st.gpr register1 result }
  if 256 ≤ register1_value + register2_value then st1.set_flag else st1.clear_flag

/-- Embeds `sub_registers1` (`overflowing_sub` on `u8`, `Vx - Vy`): result
written first, then the flag (cleared on borrow, set otherwise). -/
def Interp.sub_registers1 (st : Interp) (register1 register2 : Nat) : Interp :=
  let value2 := st.get_register register2
  let value1 := st.gpr register1
  let result := (value1 + 256 - value2) % 256
  let st1 := { st with gpr := updFn st.gpr register1 result }
  if value1 < value2 then st1.clear_flag else st1.set_flag

/-- Embeds `sub_registers2` (`Vy - Vx` written into `Vx`). -/
def Interp.sub_registers2 (st : Interp) (register1 register2 : Nat) : Interp :=
  let value2 := st.get_register register2
  let value1 := st.gpr register1
  let result := (value2 + 256 - value1) % 256
  let st1 := { st with gpr := updFn st.gpr register1 result }
  if value2 < value1 then st1.clear_flag else st1.set_flag

/-- Embeds `shift_register_right`: the LSB of the register is stored in the
flag register first, then the register (re-read) is shifted right. -/
def Interp.shift_register_right (st : Interp) (register : Nat) : Interp :=
  let value := st.get_register register
  let st1 := st.store_lsb_in_flag value
  { st1 with gpr := updFn st1.gpr register (st1.gpr register >>> 1) }

/-- Embeds `shift_register_left` (`u8` left shift truncates to 8 bits). -/
def Interp.shift_register_left (st : Interp) (register : Nat) : Interp :=
  let value := st.get_register register
  let st1 := st.store_lsb_in_flag value
  { st1 with gpr := updFn st1.gpr register ((st1.gpr register <<< 1) % 256) }

/-- Embeds `set_address_register`. -/
def Interp.set_address_register (st : Interp) (address : Nat) : Interp :=
  { st with i := address }

/-- Embeds `jump_with_register` (`wrapping_add` on `u16`). -/
def Interp.jump_with_register (st : Interp) (address : Nat) : Interp :=
  st.jump ((st.get_register 0x0 + address) % 65536)

/-- Embeds `generate_random`; `rn` is the byte produced by the RNG. -/
def Interp.generate_random (st : Interp) (register byte rn : Nat) : Interp :=
  { st with gpr := updFn st.gpr register (rn &&& byte) }

/-- The sprite byte slice `&self.memory[i..i + height]`. -/
def sliceList (mem : Nat → Nat) (i height : Nat) : List Nat :=
  (List.range height).map (fun k => mem (i + k))

/-- Embeds the interpreter's `draw_sprite` handler (`Dxyn`). -/
def Interp.draw_sprite (st : Interp) (register1 register2 height : Nat) : Interp :=
  let x := st.get_register register1
  let y := st.get_register register2
  let res := Display.draw_sprite st.display ⟨x, y⟩ (sliceList st.memory st.i height)
  let st1 := { st with display := res.1 }
  if res.2 then st1.set_flag else st1.clear_flag

/-- Embeds `key_equality_skip`. -/
def Interp.key_equality_skip (st : Interp) (register : Nat) (key : Option Nat) : Interp :=
  match key with
  | some key => st.skip_next_instruction_if (key == st.get_register register)
  | none => st

/-- Embeds `key_inequality_skip`. -/
def Interp.key_inequality_skip (st : Interp) (register : Nat) (key : Option Nat) : Interp :=
  match key with
  | some key => st.skip_next_instruction_if (key != st.get_register register)
  | none => st

/-- Embeds `get_delay_timer`. -/
def Interp.get_delay_timer (st : Interp) (register : Nat) : Interp :=
  { st with gpr := updFn st.gpr register st.delay_timer }

/-- Embeds `await_key`; `awaited` is the key the blocking wait returns. -/
def Interp.await_key (st : Interp) (register awaited : Nat) : Interp :=
  { st with gpr := updFn st.gpr register awaited }

/-- Embeds `set_delay_timer`. -/
def Interp.set_delay_timer (st : Interp) (register : Nat) : Interp :=
  { st with delay_timer := st.get_register register }

/-- Embeds `set_sound_timer`. -/
def Interp.set_sound_timer (st : Interp) (register : Nat) : Interp :=
  { st with sound_timer := st.get_register register }

/-- Embeds `add_address_register` (`i += Vx` on a `u16`, which wraps at
`2^16` in release builds). -/
def Interp.add_address_register (st : Interp) (register : Nat) : Interp :=
  { st with i := (st.i + st.get_register register) % 65536 }

/-- Embeds `set_sprite` (`Fx29`): the source assigns the register value to
the address register directly. -/
def Interp.set_sprite (st : Interp) (register : Nat) : Interp :=
  { st with i := st.get_register register }

/-- Embeds `set_address_register_to_bcd`. -/
def Interp.set_address_register_to_bcd (st : Interp) (register : Nat) : Interp :=
  let value := st.get_register register
  let digit1 := value / 100
  let digit2 := value / 10 % 10
  let digit3 := value % 10
  let mem := updFn (updFn (updFn st.memory st.i digit1) (st.i + 1) digit2) (st.i + 2) digit3
  { st with memory := mem }

/-- Embeds `store_registers` (`Fx55`). -/
def Interp.store_registers (st : Interp) (register : Nat) : Interp :=
  let mem := (List.range (register + 1)).foldl (fun m r => updFn m (st.i + r) (st.gpr r)) st.memory
  { st with memory := mem }

/-- Embeds `store_memory` (`Fx65`). -/
def Interp.store_memory (st : Interp) (register : Nat) : Interp :=
  let g := (List.range (register + 1)).foldl (fun g r => updFn g r (st.memory (st.i + r))) st.gpr
  { st with gpr := g }

/-- Embeds `clear_display` / `Display::clear` (machine-visible effect: every
grid cell becomes `false`). -/
def Interp.clear_display (st : Interp) : Interp :=
  { st with display := fun _ _ => false }

/-- Embeds `update_timers`. -/
def Interp.update_timers (st : Interp) : Interp :=
  let st1 := if st.delay_timer > 0 then { st with delay_timer := st.delay_timer - 1 } else st
  if st1.sound_timer > 0 then { st1 with sound_timer := st1.sound_timer - 1 } else st1

/-- Embeds `get_bytes`: `None` once the program counter runs off memory. -/
def Interp.get_bytes (st : Interp) : Option (Nat × Nat) :=
  if st.pc + 1 < MEMORY_SIZE then some (st.memory st.pc, st.memory (st.pc + 1)) else none

/-- The decode-error diagnostic of `Interpreter::error`: the offending
instruction and the word the source labels "the previous instruction". -/
inductive ErrMsg where
  | unknownInstruction (offending reported : Nat)
deriving DecidableEq

/-- Embeds `Interpreter::error`: the program counter (already advanced past
the offending instruction) is stepped back by one instruction and the word
found there is reported as the previous instruction. -/
def Interp.error (st : Interp) (byte1 byte2 : Nat) : ErrMsg :=
  let instruction := get_instruction byte1 byte2
  let st1 := st.previous_instruction
  let previous_instruction :=
    get_instruction (st1.memory st1.pc) (st1.memory (st1.pc + 1))
  ErrMsg.unknownInstruction instruction previous_instruction

/-- Outcome of one iteration of the `run` loop. -/
inductive Outcome where
  | halt
  | fatal (e : ErrMsg)
  | panicked (msg : String)
  | next (st : Interp)

/-- Whether an outcome is the `Err` path that `run` propagates (exit code 1). -/
def Outcome.isFatal : Outcome → Bool
  | .fatal _ => true
  | _ => false

/-- Whether an outcome is a host-process panic. -/
def Outcome.isPanic : Outcome → Bool
  | .panicked _ => true
  | _ => false

/-- A handler finished normally: tick the timers and continue the loop. -/
def stepOk (st : Interp) : Outcome :=
  Outcome.next st.update_timers

/-- One iteration of `Interpreter::run`: fetch two bytes, decode, advance
the program counter, dispatch on the nibble pattern, tick timers. `key` is
the key event polled this cycle, `rn` the byte the RNG would produce, and
`awaited` the key a blocking `Fx0A` would obtain. -/
def step (st0 : Interp) (key : Option Nat) (rn awaited : Nat) : Outcome :=
  match st0.get_bytes with
  | none => Outcome.halt
  | some (byte1, byte2) =>
    let instruction := get_instruction byte1 byte2
    let ns := split_word instruction
    let nibble1 := ns.1
    let nibble2 := ns.2.1
    let nibble3 := ns.2.2.1
    let nibble4 := ns.2.2.2
    let tribble := Tribble.new nibble2 nibble3 nibble4
    let st := st0.next_instruction
    if nibble1 = 0x0 then
      if tribble = 0x0E0 then stepOk st.clear_display
      else if tribble = 0x0EE then
        match st.ret with
        | RetResult.panicked msg => Outcome.panicked msg
        | RetResult.ok st1 => stepOk st1
      else stepOk st
    else if nibble1 = 0x1 then stepOk (st.jump tribble)
    else if nibble1 = 0x2 then stepOk (st.call tribble)
    else if nibble1 = 0x3 then stepOk (st.value_equality_skip nibble2 byte2)
    else if nibble1 = 0x4 then stepOk (st.value_inequality_skip nibble2 byte2)
    else if nibble1 = 0x5 then stepOk (st.register_equality_skip nibble2 nibble3)
    else if nibble1 = 0x6 then stepOk (st.set_register_to_value nibble2 byte2)
    else if nibble1 = 0x7 then stepOk (st.add_to_register nibble2 byte2)
    else if nibble1 = 0x8 then
      if nibble4 = 0x0 then stepOk (st.set_registers nibble2 nibble3)
      else if nibble4 = 0x1 then stepOk (st.or_registers nibble2 nibble3)
      else if nibble4 = 0x2 then stepOk (st.and_registers nibble2 nibble3)
      else if nibble4 = 0x3 then stepOk (st.xor_registers nibble2 nibble3)
      else if nibble4 = 0x4 then stepOk (st.add_registers nibble2 nibble3)
      else if nibble4 = 0x5 then stepOk (st.sub_registers1 nibble2 nibble3)
      else if nibble4 = 0x6 then stepOk (st.shift_register_right nibble2)
      else if nibble4 = 0x7 then stepOk (st.sub_registers2 nibble2 nibble3)
      else if nibble4 = 0xE then stepOk (st.shift_register_left nibble2)
      else Outcome.fatal (st.error byte1 byte2)
    else if nibble1 = 0x9 then stepOk (st.register_inequality_skip nibble2 nibble3)
    else if nibble1 = 0xA then stepOk (st.set_address_register tribble)
    else if nibble1 = 0xB then stepOk (st.jump_with_register tribble)
    else if nibble1 = 0xC then stepOk (st.generate_random nibble2 byte2 rn)
    else if nibble1 = 0xD then stepOk (st.draw_sprite nibble2 nibble3 nibble4)
    else if nibble1 = 0xE then
      if nibble3 = 0x9 then stepOk (st.key_equality_skip nibble2 key)
      else if nibble3 = 0xA then stepOk (st.key_inequality_skip nibble2 key)
      else Outcome.fatal (st.error byte1 byte2)
    else if nibble1 = 0xF then
      if byte2 = 0x07 then stepOk (st.get_delay_timer nibble2)
      else if byte2 = 0x0A then stepOk (st.await_key nibble2 awaited)
      else if byte2 = 0x15 then stepOk (st.set_delay_timer nibble2)
      else if byte2 = 0x18 then stepOk (st.set_sound_timer nibble2)
      else if byte2 = 0x1E then stepOk (st.add_address_register nibble2)
      else if byte2 = 0x29 then stepOk (st.set_sprite nibble2)
      else if byte2 = 0x33 then stepOk (st.set_address_register_to_bcd nibble2)
      else if byte2 = 0x55 then stepOk (st.store_registers nibble2)
      else if byte2 = 0x65 then stepOk (st.store_memory nibble2)
      else Outcome.fatal (st.error byte1 byte2)
    else Outcome.fatal (st.error byte1 byte2)

/-- An all-zero interpreter state, used for concrete evaluations. -/
def zeroInterp : Interp where
  pc := 0
  gpr := fun _ => 0
  i := 0
  display := fun _ _ => false
  stack := []
  memory := fun _ => 0
  delay_timer := 0
  sound_timer := 0

theorem loadList_lower (xs : List Nat) : ∀ (mem : Nat → Nat) (start a : Nat),
    a < start → loadList mem start xs a = mem a := by
  induction xs with
  | nil => intro mem start a _; rfl
  | cons b rest ih =>
    intro mem start a ha
    show loadList (updFn mem start b) (start + 1) rest a = mem a
    rw [ih (updFn mem start b) (start + 1) a (by omega)]
    exact updFn_other mem start b a (by omega)

theorem loadList_lookup (xs : List Nat) : ∀ (mem : Nat → Nat) (start k : Nat),
    k < xs.length → loadList mem start xs (start + k) = xs.getD k 0 := by
  induction xs with
  | nil => intro mem start k hk; simp at hk
  | cons b rest ih =>
    intro mem start k hk
    match k with
    | 0 =>
      show loadList (updFn mem start b) (start + 1) rest (start + 0) = b
      rw [loadList_lower rest (updFn mem start b) (start + 1) (start + 0) (by omega)]
      simp
    | k + 1 =>
      show loadList (updFn mem start b) (start + 1) rest (start + (k + 1)) = rest.getD k 0
      rw [show start + (k + 1) = (start + 1) + k from by omega]
      exact ih (updFn mem start b) (start + 1) k (by simp only [List.length_cons] at hk; omega)

theorem sliceList_length (mem : Nat → Nat) (i n : Nat) :
    (sliceList mem i n).length = n := by
  simp [sliceList]

theorem sliceList_getD (mem : Nat → Nat) (i n r : Nat) (h : r < n) :
    (sliceList mem i n).getD r 0 = mem (i + r) := by
  unfold sliceList
  rw [List.getD_eq_getElem _ _ (by simpa using h)]
  simp

/-- Joint characterisation of the `Dxyn` handler: the resulting display is
the grid produced by `Display::draw_sprite` and VF holds 1 or 0 according to
the collision flag. -/
theorem draw_sprite_handler_eq (st : Interp) (rx ry n : Nat) :
    (st.draw_sprite rx ry n).display
        = (Display.draw_sprite st.display ⟨st.gpr rx, st.gpr ry⟩ (sliceList st.memory st.i n)).1
    ∧ (st.draw_sprite rx ry n).gpr 0xF
        = (if (Display.draw_sprite st.display ⟨st.gpr rx, st.gpr ry⟩ (sliceList st.memory st.i n)).2
           then 1 else 0) := by
  unfold Interp.draw_sprite Interp.get_register
  by_cases h : (Display.draw_sprite st.display ⟨st.gpr rx, st.gpr ry⟩ (sliceList st.memory st.i n)).2
  · simp [h, Interp.set_flag, Interp.clear_flag]
  · simp [h, Interp.set_flag, Interp.clear_flag]

/-- C7: `8xy4` writes the wrapping sum to Vx and then the carry flag (1 on
overflow, else 0) to VF; `8xy5` writes the wrapping difference Vx - Vy to Vx
and then the borrow flag (1 when no borrow occurred, else 0) to VF; in
particular 0xFF + 0x01 gives 0x00 with flag 1, 0x05 - 0x03 gives 0x02 with
flag 1, and 0x03 - 0x05 gives 0xFE with flag 0. -/
theorem C7_add_sub_registers :
    (∀ (st : Interp) (x y : Nat),
      (st.add_registers x y).gpr
        = updFn (updFn st.gpr x ((st.gpr x + st.gpr y) % 256)) 0xF
            (if 256 ≤ st.gpr x + st.gpr y then 1 else 0))
    ∧ (∀ (st : Interp) (x y : Nat),
      (st.sub_registers1 x y).gpr
        = updFn (updFn st.gpr x ((st.gpr x + 256 - st.gpr y) % 256)) 0xF
            (if st.gpr x < st.gpr y then 0 else 1))
    ∧ (({ zeroInterp with gpr := updFn (updFn (fun _ => 0) 0 0xFF) 1 0x01 } : Interp).add_registers 0 1).gpr 0 = 0x00
    ∧ (({ zeroInterp with gpr := updFn (updFn (fun _ => 0) 0 0xFF) 1 0x01 } : Interp).add_registers 0 1).gpr 0xF = 1
    ∧ (({ zeroInterp with gpr := updFn (updFn (fun _ => 0) 0 0x05) 1 0x03 } : Interp).sub_registers1 0 1).gpr 0 = 0x02
    ∧ (({ zeroInterp with gpr := updFn (updFn (fun _ => 0) 0 0x05) 1 0x03 } : Interp).sub_registers1 0 1).gpr 0xF = 1
    ∧ (({ zeroInterp with gpr := updFn (updFn (fun _ => 0) 0 0x03) 1 0x05 } : Interp).sub_registers1 0 1).gpr 0 = 0xFE
    ∧ (({ zeroInterp with gpr := updFn (updFn (fun _ => 0) 0 0x03) 1 0x05 } : Interp).sub_registers1 0 1).gpr 0xF = 0 := by
  refine ⟨?_, ?_, by decide, by decide, by decide, by decide, by decide, by decide⟩
  · intro st x y
    unfold Interp.add_registers Interp.get_register
    by_cases h : 256 ≤ st.gpr x + st.gpr y
    · simp [h, Interp.set_flag, Interp.clear_flag]
    · simp [h, Interp.set_flag, Interp.clear_flag]
  · intro st x y
    unfold Interp.sub_registers1 Interp.get_register
    by_cases h : st.gpr x < st.gpr y
    · simp [h, Interp.set_flag, Interp.clear_flag]
    · simp [h, Interp.set_flag, Interp.clear_flag]

/-- C10: writing the flag after the result means that for x = 0xF the
arithmetic handlers leave the carry/borrow flag in VF (the arithmetic result
is discarded), and the shift handlers first store the LSB of VF into VF and
then shift VF itself: `8xy6` leaves (VF &&& 1) >>> 1 = 0 and `8xyE` leaves
(VF &&& 1) <<< 1 (mod 256). -/
theorem C10_flag_register_aliasing :
    (∀ (st : Interp) (y : Nat),
      (st.add_registers 0xF y).gpr 0xF = if 256 ≤ st.gpr 0xF + st.gpr y then 1 else 0)
    ∧ (∀ (st : Interp) (y : Nat),
      (st.sub_registers1 0xF y).gpr 0xF = if st.gpr 0xF < st.gpr y then 0 else 1)
    ∧ (∀ (st : Interp) (y : Nat),
      (st.sub_registers2 0xF y).gpr 0xF = if st.gpr y < st.gpr 0xF then 0 else 1)
    ∧ (∀ st : Interp,
      (st.shift_register_right 0xF).gpr 0xF = (st.gpr 0xF &&& 1) >>> 1
        ∧ (st.shift_register_right 0xF).gpr 0xF = 0)
    ∧ (∀ st : Interp,
      (st.shift_register_left 0xF).gpr 0xF = ((st.gpr 0xF &&& 1) <<< 1) % 256) := by
  refine ⟨?_, ?_, ?_, ?_, ?_⟩
  · intro st y
    unfold Interp.add_registers Interp.get_register
    by_cases h : 256 ≤ st.gpr 0xF + st.gpr y
    · simp [h, Interp.set_flag, Interp.clear_flag]
    · simp [h, Interp.set_flag, Interp.clear_flag]
  · intro st y
    unfold Interp.sub_registers1 Interp.get_register
    by_cases h : st.gpr 0xF < st.gpr y
    · simp [h, Interp.set_flag, Interp.clear_flag]
    · simp [h, Interp.set_flag, Interp.clear_flag]
  · intro st y
    unfold Interp.sub_registers2 Interp.get_register
    by_cases h : st.gpr y < st.gpr 0xF
    · simp [h, Interp.set_flag, Interp.clear_flag]
    · simp [h, Interp.set_flag, Interp.clear_flag]
  · intro st
    unfold Interp.shift_register_right Interp.get_register Interp.store_lsb_in_flag
    constructor
    · simp
    · simp
      rw [Nat.shiftRight_eq_div_pow]
      omega
  · intro st
    unfold Interp.shift_register_left Interp.get_register Interp.store_lsb_in_flag
    simp

/-- C8 counterexample: from I = 0xFFF and V0 = 0xFF, the `Fx1E` handler
leaves I = 0x10FE, outside the claimed 12-bit range 0x000..0xFFF. -/
theorem C8_address_register_cex :
    (({ zeroInterp with i := 0xFFF, gpr := updFn (fun _ => 0) 0 0xFF } : Interp).add_address_register 0).i = 0x10FE
    ∧ ¬ (({ zeroInterp with i := 0xFFF, gpr := updFn (fun _ => 0) 0 0xFF } : Interp).add_address_register 0).i ≤ 0xFFF := by
  constructor <;> decide

/-- C8 (amended): `Fx1E` performs I := (I + Vx) mod 2^16 with no effect on
the general registers, but need not keep I within 12 bits; the other
handlers that write I do stay 12-bit: an address operand built by
`Tribble::new` from three nibbles is < 0x1000, and `Fx29` writes a byte. -/
theorem C8_address_register_amended :
    (∀ (st : Interp) (r : Nat),
      (st.add_address_register r).i = (st.i + st.gpr r) % 65536
        ∧ (st.add_address_register r).gpr = st.gpr)
    ∧ (∀ n1 n2 n3 : Nat, n1 < 16 → n2 < 16 → n3 < 16 → Tribble.new n1 n2 n3 < 0x1000)
    ∧ (∀ (st : Interp) (r : Nat), st.gpr r < 256 → (st.set_sprite r).i < 0x1000) := by
  refine ⟨?_, ?_, ?_⟩
  · intro st r
    exact ⟨rfl, rfl⟩
  · intro n1 n2 n3 h1 h2 h3
    rw [tribble_eq n1 n2 n3 h2 h3]
    omega
  · intro st r h
    show st.gpr r < 0x1000
    omega

/-- Concrete instance of the amended C8: a 12-bit operand from nibbles
(0x2, 0xF, 0xE) and an `Fx29` write from a zeroed register stay below
0x1000. -/
theorem C8_address_register_amended_witness :
    Tribble.new 0x2 0xF 0xE < 0x1000 ∧ (zeroInterp.set_sprite 0).i < 0x1000 :=
  ⟨C8_address_register_amended.2.1 0x2 0xF 0xE (by norm_num) (by norm_num) (by norm_num),
   C8_address_register_amended.2.2 zeroInterp 0 (by decide)⟩

/-- C2 counterexample: with V2 = 2 the `Fx29` handler sets I = 2, not
2 * 5 = 10, and the font table is 16 * 7 bytes long, not 16 * 5. -/
theorem C2_set_sprite_cex :
    (({ zeroInterp with gpr := updFn (fun _ => 0) 2 2 } : Interp).set_sprite 2).i ≠ 2 * 5
    ∧ FONT.length ≠ 16 * 5 := by
  constructor <;> decide

/-- C2 (amended): `Fx29` sets the address register to Vx itself (no
multiplication by a glyph size), and the built-in glyph table holds 16
glyphs of 7 bytes each, laid out sequentially from memory offset 0 by
`load_font`. -/
theorem C2_set_sprite_amended :
    (∀ (st : Interp) (r : Nat), (st.set_sprite r).i = st.gpr r)
    ∧ FONT.length = 16 * 7
    ∧ (∀ k, k < 16 * 7 → load_font (fun _ => 0) k = FONT.getD k 0) := by
  refine ⟨fun st r => rfl, by decide, ?_⟩
  intro k hk
  have hlen : k < FONT.length := by
    have : FONT.length = 16 * 7 := by decide
    omega
  have h := loadList_lookup FONT (fun _ => 0) 0 k hlen
  rwa [Nat.zero_add] at h

/-- Concrete instance of the amended C2: `Fx29` copies V3 into I, and the
byte at font offset 10 (fourth row of the glyph for 1) is loaded verbatim. -/
theorem C2_set_sprite_amended_witness :
    (zeroInterp.set_sprite 3).i = zeroInterp.gpr 3
    ∧ load_font (fun _ => 0) 10 = FONT.getD 10 0 :=
  ⟨C2_set_sprite_amended.1 zeroInterp 3,
   C2_set_sprite_amended.2.2 10 (by norm_num)⟩

/-- C4 counterexample: the `Dxyn` handler drawing at x = 64 (outside the
claimed 64-column machine-visible area, inside the real 74-column grid)
turns on the framebuffer cell in column 64: a draw opcode reads and writes
margin cells, and the grid constants are 74 x 42, not 64 x 32. -/
theorem C4_framebuffer_cex :
    (({ zeroInterp with gpr := updFn (fun _ => 0) 0 64, i := 0x200, memory := updFn (fun _ => 0) 0x200 0x80 } : Interp).draw_sprite 0 1 1).display 0 64 = true
    ∧ SIZE_width ≠ 64 ∧ SIZE_height ≠ 32 := by
  refine ⟨by decide, by decide, by decide⟩

/-- C4 (amended): the framebuffer grid measures (64+10) columns by (32+10)
rows, and sprite drawing treats margin cells (such as column 64) as
ordinary machine-visible pixel state, XORing sprite bits into them. -/
theorem C4_framebuffer_amended :
    SIZE_width = 74 ∧ SIZE_height = 42
    ∧ (∀ (g : Grid) (y : Nat),
        (Display.draw_sprite g ⟨64, y⟩ [0x80]).1 y 64 = Bool.xor (g y 64) true) := by
  refine ⟨rfl, rfl, ?_⟩
  intro g y
  obtain ⟨-, hget, -⟩ := draw_sprite_spec [0x80] g 64 y
  have h := hget 0 (by simp) 0 (by norm_num)
  have hbit : bitAt (([0x80] : List Nat).getD 0 0) 0 = true := by decide
  rw [hbit] at h
  simpa using h

/-- C5: for an in-bounds `Dxyn` draw, the n sprite bytes are read from
memory at [I, I+n); bit b (most significant first) of byte r is XORed into
the framebuffer cell at column Vx + b, row Vy + r; afterwards VF = 1 exactly
when some cell went from set to unset (its sprite bit was 1 and it was
already on), and VF = 0 exactly when no such transition occurred. -/
theorem C5_draw_sprite (st : Interp) (rx ry n : Nat)
    (hx : st.gpr rx + 8 ≤ SIZE_width) (hy : st.gpr ry + n ≤ SIZE_height)
    (hi : st.i + n ≤ MEMORY_SIZE) :
    (∀ r, r < n → ∀ b, b < 8 →
      (st.draw_sprite rx ry n).display (st.gpr ry + r) (st.gpr rx + b)
        = Bool.xor (st.display (st.gpr ry + r) (st.gpr rx + b)) (bitAt (st.memory (st.i + r)) b))
    ∧ ((st.draw_sprite rx ry n).gpr 0xF = 1 ↔
        ∃ r, r < n ∧ ∃ b, b < 8 ∧ st.display (st.gpr ry + r) (st.gpr rx + b) = true
          ∧ bitAt (st.memory (st.i + r)) b = true)
    ∧ ((st.draw_sprite rx ry n).gpr 0xF = 0 ↔
        ¬ ∃ r, r < n ∧ ∃ b, b < 8 ∧ st.display (st.gpr ry + r) (st.gpr rx + b) = true
          ∧ bitAt (st.memory (st.i + r)) b = true) := by
  obtain ⟨hdisp, hflag⟩ := draw_sprite_handler_eq st rx ry n
  obtain ⟨-, hget, hcol⟩ := draw_sprite_spec (sliceList st.memory st.i n) st.display (st.gpr rx) (st.gpr ry)
  have hex : ((Display.draw_sprite st.display ⟨st.gpr rx, st.gpr ry⟩ (sliceList st.memory st.i n)).2 = true)
      ↔ ∃ r, r < n ∧ ∃ b, b < 8 ∧ st.display (st.gpr ry + r) (st.gpr rx + b) = true
          ∧ bitAt (st.memory (st.i + r)) b = true := by
    rw [hcol]
    constructor
    · rintro ⟨r, hr, b, hb, hc, hbit⟩
      rw [sliceList_length] at hr
      rw [sliceList_getD st.memory st.i n r hr] at hbit
      exact ⟨r, hr, b, hb, hc, hbit⟩
    · rintro ⟨r, hr, b, hb, hc, hbit⟩
      refine ⟨r, by rw [sliceList_length]; exact hr, b, hb, hc, ?_⟩
      rw [sliceList_getD st.memory st.i n r hr]
      exact hbit
  refine ⟨?_, ?_, ?_⟩
  · intro r hr b hb
    rw [hdisp]
    have h := hget r (by rw [sliceList_length]; exact hr) b hb
    rw [sliceList_getD st.memory st.i n r hr] at h
    exact h
  · rw [hflag]
    rw [← hex]
    by_cases h : (Display.draw_sprite st.display ⟨st.gpr rx, st.gpr ry⟩ (sliceList st.memory st.i n)).2
    · simp [h]
    · simp [h]
  · rw [hflag]
    rw [← hex]
    by_cases h : (Display.draw_sprite st.display ⟨st.gpr rx, st.gpr ry⟩ (sliceList st.memory st.i n)).2
    · simp [h]
    · simp [h]

/-- Concrete instance of C5 at the all-zero state with a one-row draw. -/
theorem C5_draw_sprite_witness :
    (zeroInterp.gpr 0 + 8 ≤ SIZE_width ∧ zeroInterp.gpr 1 + 1 ≤ SIZE_height
      ∧ zeroInterp.i + 1 ≤ MEMORY_SIZE)
    ∧ ((∀ r, r < 1 → ∀ b, b < 8 →
      (zeroInterp.draw_sprite 0 1 1).display (zeroInterp.gpr 1 + r) (zeroInterp.gpr 0 + b)
        = Bool.xor (zeroInterp.display (zeroInterp.gpr 1 + r) (zeroInterp.gpr 0 + b))
            (bitAt (zeroInterp.memory (zeroInterp.i + r)) b))
    ∧ ((zeroInterp.draw_sprite 0 1 1).gpr 0xF = 1 ↔
        ∃ r, r < 1 ∧ ∃ b, b < 8 ∧ zeroInterp.display (zeroInterp.gpr 1 + r) (zeroInterp.gpr 0 + b) = true
          ∧ bitAt (zeroInterp.memory (zeroInterp.i + r)) b = true)
    ∧ ((zeroInterp.draw_sprite 0 1 1).gpr 0xF = 0 ↔
        ¬ ∃ r, r < 1 ∧ ∃ b, b < 8 ∧ zeroInterp.display (zeroInterp.gpr 1 + r) (zeroInterp.gpr 0 + b) = true
          ∧ bitAt (zeroInterp.memory (zeroInterp.i + r)) b = true)) :=
  ⟨⟨by decide, by decide, by decide⟩,
   C5_draw_sprite zeroInterp 0 1 1 (by decide) (by decide) (by decide)⟩

/-- Whether an outcome halts the loop normally (end of program). -/
def Outcome.isHalt : Outcome → Bool
  | .halt => true
  | _ => false

theorem update_timers_pc (s : Interp) : s.update_timers.pc = s.pc := by
  unfold Interp.update_timers
  dsimp only
  split <;> split <;> rfl

theorem skip_pc (s : Interp) (c : Bool) :
    (s.skip_next_instruction_if c).pc = if c then (s.pc + 2) % 65536 else s.pc := by
  unfold Interp.skip_next_instruction_if Interp.next_instruction
  cases c <;> simp

/-- C1: for the one-instruction program `00EE` (return with an empty call
stack), construction succeeds and the first dispatch step panics the host
process with the source's `panic!` message; it does not produce the fatal
`Err` outcome that `run` would propagate to the process boundary. -/
theorem C1_return_underflow_panics :
    (Interp.new [0x00, 0xEE]).map (fun st => step st none 0 0)
      = Except.ok (Outcome.panicked "return outside function")
    ∧ (Interp.new [0x00, 0xEE]).map (fun st => (step st none 0 0).isFatal)
      = Except.ok false := by
  constructor <;> rfl

/-- C3 counterexample: the instruction word 0x0123 matches no documented
opcode, yet the dispatcher neither halts with a fatal decode error nor
stops: the cycle completes and execution continues. -/
theorem C3_decode_error_cex :
    (step ({ zeroInterp with pc := 0x200, memory := updFn (updFn (fun _ => 0) 0x200 0x01) 0x201 0x23 } : Interp) none 0 0).isFatal = false
    ∧ (step ({ zeroInterp with pc := 0x200, memory := updFn (updFn (fun _ => 0) 0x200 0x01) 0x201 0x23 } : Interp) none 0 0).isHalt = false := by
  constructor <;> rfl

/-- C3 (amended): unrecognized patterns in the `8xy_` family (low nibble not
0-7 or E), the `Ex__` family (third nibble not 9 or A) and the `Fx__` family
(low byte not one of the nine handled values) halt immediately with a fatal
decode error, but the diagnostic's "previous instruction" is the word
re-read at the offending instruction's own address (the program counter was
advanced by 2 and rewound by 2), i.e. the offending instruction again, not
the previously executed one; and words with high nibble 0 other than
00E0/00EE are silently ignored: the cycle completes with only the default
counter advance and the timer tick. -/
theorem C3_decode_error_amended :
    (∀ (st : Interp) (x y n4 : Nat) (key : Option Nat) (rn awaited : Nat),
      st.pc + 1 < MEMORY_SIZE → x < 16 → y < 16 → n4 < 16 →
      st.memory st.pc = 0x80 + x → st.memory (st.pc + 1) = 16 * y + n4 →
      (n4 = 0x8 ∨ n4 = 0x9 ∨ n4 = 0xA ∨ n4 = 0xB ∨ n4 = 0xC ∨ n4 = 0xD ∨ n4 = 0xF) →
      step st key rn awaited
        = Outcome.fatal (ErrMsg.unknownInstruction
            (get_instruction (st.memory st.pc) (st.memory (st.pc + 1)))
            (get_instruction (st.memory st.pc) (st.memory (st.pc + 1)))))
    ∧ (∀ (st : Interp) (x b2 : Nat) (key : Option Nat) (rn awaited : Nat),
      st.pc + 1 < MEMORY_SIZE → x < 16 → b2 < 256 →
      st.memory st.pc = 0xE0 + x → st.memory (st.pc + 1) = b2 →
      b2 / 16 ≠ 0x9 → b2 / 16 ≠ 0xA →
      step st key rn awaited
        = Outcome.fatal (ErrMsg.unknownInstruction
            (get_instruction (st.memory st.pc) (st.memory (st.pc + 1)))
            (get_instruction (st.memory st.pc) (st.memory (st.pc + 1)))))
    ∧ (∀ (st : Interp) (x b2 : Nat) (key : Option Nat) (rn awaited : Nat),
      st.pc + 1 < MEMORY_SIZE → x < 16 → b2 < 256 →
      st.memory st.pc = 0xF0 + x → st.memory (st.pc + 1) = b2 →
      b2 ≠ 0x07 → b2 ≠ 0x0A → b2 ≠ 0x15 → b2 ≠ 0x18 → b2 ≠ 0x1E →
      b2 ≠ 0x29 → b2 ≠ 0x33 → b2 ≠ 0x55 → b2 ≠ 0x65 →
      step st key rn awaited
        = Outcome.fatal (ErrMsg.unknownInstruction
            (get_instruction (st.memory st.pc) (st.memory (st.pc + 1)))
            (get_instruction (st.memory st.pc) (st.memory (st.pc + 1)))))
    ∧ (∀ (st : Interp) (b1 b2 : Nat) (key : Option Nat) (rn awaited : Nat),
      st.pc + 1 < MEMORY_SIZE → b1 < 16 → b2 < 256 →
      st.memory st.pc = b1 → st.memory (st.pc + 1) = b2 →
      256 * b1 + b2 ≠ 0x0E0 → 256 * b1 + b2 ≠ 0x0EE →
      step st key rn awaited = Outcome.next st.next_instruction.update_timers) := by
  refine ⟨?_, ?_, ?_, ?_⟩
  · intro st x y n4 key rn awaited hpc hx hy hn4 hm1 hm2 hbad
    have hb2 : 16 * y + n4 < 256 := by omega
    have hw : get_instruction (0x80 + x) (16 * y + n4)
        = (0x80 + x) * 256 + (16 * y + n4) := get_instruction_eq _ _ hb2
    have hsplit : split_word ((0x80 + x) * 256 + (16 * y + n4)) = (8, x, y, n4) := by
      rw [split_word_eq _ (by omega)]
      simp only [Prod.mk.injEq]
      refine ⟨by omega, by omega, by omega, by omega⟩
    have hpc2 : (st.pc + 2) % 65536 = st.pc + 2 := Nat.mod_eq_of_lt (by
      unfold MEMORY_SIZE at hpc
      omega)
    unfold step
    simp only [Interp.get_bytes, hpc, if_true, hm1, hm2, hw, hsplit]
    rcases hbad with rfl | rfl | rfl | rfl | rfl | rfl | rfl <;>
      simp [Interp.error, Interp.previous_instruction, Interp.next_instruction,
        hpc2, hm1, hm2, hw]
  · intro st x b2 key rn awaited hpc hx hb2 hm1 hm2 hn3a hn3b
    have hw : get_instruction (0xE0 + x) b2 = (0xE0 + x) * 256 + b2 :=
      get_instruction_eq _ _ hb2
    have hsplit : split_word ((0xE0 + x) * 256 + b2) = (14, x, b2 / 16, b2 % 16) := by
      rw [split_word_eq _ (by omega)]
      simp only [Prod.mk.injEq]
      refine ⟨by omega, by omega, by omega, by omega⟩
    have hpc2 : (st.pc + 2) % 65536 = st.pc + 2 := Nat.mod_eq_of_lt (by
      unfold MEMORY_SIZE at hpc
      omega)
    unfold step
    simp only [Interp.get_bytes, hpc, if_true, hm1, hm2, hw, hsplit]
    simp [Interp.error, Interp.previous_instruction, Interp.next_instruction,
      hpc2, hm1, hm2, hw, hn3a, hn3b]
  · intro st x b2 key rn awaited hpc hx hb2 hm1 hm2 h07 h0A h15 h18 h1E h29 h33 h55 h65
    have hw : get_instruction (0xF0 + x) b2 = (0xF0 + x) * 256 + b2 :=
      get_instruction_eq _ _ hb2
    have hsplit : split_word ((0xF0 + x) * 256 + b2) = (15, x, b2 / 16, b2 % 16) := by
      rw [split_word_eq _ (by omega)]
      simp only [Prod.mk.injEq]
      refine ⟨by omega, by omega, by omega, by omega⟩
    have hpc2 : (st.pc + 2) % 65536 = st.pc + 2 := Nat.mod_eq_of_lt (by
      unfold MEMORY_SIZE at hpc
      omega)
    unfold step
    simp only [Interp.get_bytes, hpc, if_true, hm1, hm2, hw, hsplit]
    simp [Interp.error, Interp.previous_instruction, Interp.next_instruction,
      hpc2, hm1, hm2, hw, h07, h0A, h15, h18, h1E, h29, h33, h55, h65]
  · intro st b1 b2 key rn awaited hpc hb1 hb2 hm1 hm2 hne1 hne2
    have hw : get_instruction b1 b2 = b1 * 256 + b2 := get_instruction_eq _ _ hb2
    have hsplit : split_word (b1 * 256 + b2) = (0, b1, b2 / 16, b2 % 16) := by
      rw [split_word_eq _ (by omega)]
      simp only [Prod.mk.injEq]
      refine ⟨by omega, by omega, by omega, by omega⟩
    have htrib : Tribble.new b1 (b2 / 16) (b2 % 16) = 256 * b1 + b2 := by
      rw [tribble_eq _ _ _ (by omega) (by omega)]
      omega
    unfold step
    simp only [Interp.get_bytes, hpc, if_true, hm1, hm2, hw, hsplit]
    simp [htrib, hne1, hne2, stepOk]

/-- Concrete instances of the amended C3: the words 0x8008, 0xE000 and
0xF000 are fatal decode errors whose diagnostics report the offending word
itself as the "previous" instruction. -/
theorem C3_decode_error_amended_witness :
    step ({ zeroInterp with pc := 0x200, memory := updFn (updFn (fun _ => 0) 0x200 0x80) 0x201 0x08 } : Interp) none 0 0
      = Outcome.fatal (ErrMsg.unknownInstruction 0x8008 0x8008)
    ∧ step ({ zeroInterp with pc := 0x200, memory := updFn (updFn (fun _ => 0) 0x200 0xE0) 0x201 0x00 } : Interp) none 0 0
      = Outcome.fatal (ErrMsg.unknownInstruction 0xE000 0xE000)
    ∧ step ({ zeroInterp with pc := 0x200, memory := updFn (updFn (fun _ => 0) 0x200 0xF0) 0x201 0x00 } : Interp) none 0 0
      = Outcome.fatal (ErrMsg.unknownInstruction 0xF000 0xF000) := by
  refine ⟨?_, ?_, ?_⟩
  · exact C3_decode_error_amended.1
      ({ zeroInterp with pc := 0x200, memory := updFn (updFn (fun _ => 0) 0x200 0x80) 0x201 0x08 } : Interp)
      0 0 8 none 0 0 (by decide) (by decide) (by decide) (by decide)
      (by decide) (by decide) (Or.inl rfl)
  · exact C3_decode_error_amended.2.1
      ({ zeroInterp with pc := 0x200, memory := updFn (updFn (fun _ => 0) 0x200 0xE0) 0x201 0x00 } : Interp)
      0 0 none 0 0 (by decide) (by decide) (by decide) (by decide)
      (by decide) (by decide) (by decide)
  · exact C3_decode_error_amended.2.2.1
      ({ zeroInterp with pc := 0x200, memory := updFn (updFn (fun _ => 0) 0x200 0xF0) 0x201 0x00 } : Interp)
      0 0 none 0 0 (by decide) (by decide) (by decide) (by decide)
      (by decide) (by decide) (by decide) (by decide) (by decide)
      (by decide) (by decide) (by decide) (by decide) (by decide)

/-- C6: the program counter is advanced by 2 before dispatch, and the skip
handler adds another 2; so a `3xkk` instruction fetched at p continues at
p + 4 when Vx = kk and at p + 2 when Vx ≠ kk. -/
theorem C6_skip_timing (st : Interp) (x kk : Nat) (key : Option Nat) (rn awaited : Nat)
    (hpc : st.pc + 1 < MEMORY_SIZE) (hx : x < 16) (hkk : kk < 256)
    (hm1 : st.memory st.pc = 0x30 + x) (hm2 : st.memory (st.pc + 1) = kk) :
    ∃ st' : Interp, step st key rn awaited = Outcome.next st'
      ∧ st'.pc = (if st.gpr x = kk then st.pc + 4 else st.pc + 2) := by
  have hw : get_instruction (0x30 + x) kk = (0x30 + x) * 256 + kk :=
    get_instruction_eq _ _ hkk
  have hsplit : split_word ((0x30 + x) * 256 + kk) = (3, x, kk / 16, kk % 16) := by
    rw [split_word_eq _ (by omega)]
    simp only [Prod.mk.injEq]
    refine ⟨by omega, by omega, by omega, by omega⟩
  have hstep : step st key rn awaited
      = stepOk (st.next_instruction.value_equality_skip x kk) := by
    unfold step
    simp only [Interp.get_bytes, hpc, if_true, hm1, hm2, hw, hsplit]
    simp
  refine ⟨(st.next_instruction.value_equality_skip x kk).update_timers, by rw [hstep]; rfl, ?_⟩
  rw [update_timers_pc]
  unfold MEMORY_SIZE at hpc
  unfold Interp.value_equality_skip Interp.get_register
  rw [skip_pc]
  by_cases h : st.gpr x = kk
  · have hb : (st.next_instruction.gpr x == kk) = true := by
      unfold Interp.next_instruction
      simp [h]
    rw [hb, if_pos rfl, if_pos h]
    unfold Interp.next_instruction
    dsimp only
    omega
  · have hb : (st.next_instruction.gpr x == kk) = false := by
      unfold Interp.next_instruction
      simp [h]
    rw [hb, if_neg (by simp), if_neg h]
    unfold Interp.next_instruction
    dsimp only
    omega

/-- Concrete instance of C6: `3000` at 0x200 with V0 = 0 skips to 0x204. -/
theorem C6_skip_timing_witness :
    (({ zeroInterp with pc := 0x200, memory := updFn (fun _ => 0) 0x200 0x30 } : Interp).pc + 1 < MEMORY_SIZE)
    ∧ ∃ st' : Interp,
      step ({ zeroInterp with pc := 0x200, memory := updFn (fun _ => 0) 0x200 0x30 } : Interp) none 0 0 = Outcome.next st'
      ∧ st'.pc = (if ({ zeroInterp with pc := 0x200, memory := updFn (fun _ => 0) 0x200 0x30 } : Interp).gpr 0 = 0
          then ({ zeroInterp with pc := 0x200, memory := updFn (fun _ => 0) 0x200 0x30 } : Interp).pc + 4
          else ({ zeroInterp with pc := 0x200, memory := updFn (fun _ => 0) 0x200 0x30 } : Interp).pc + 2) :=
  ⟨by decide,
   C6_skip_timing ({ zeroInterp with pc := 0x200, memory := updFn (fun _ => 0) 0x200 0x30 } : Interp)
     0 0 none 0 0 (by decide) (by decide) (by decide) (by decide) (by decide)⟩

end Chip8
